import Mathlib

/-!
Verification of the order-line price computation engine
(`packages/core/src/entity/order-line/order-line.entity.ts`).

Monetary amounts are JS numbers holding integer minor-currency units; all
arithmetic in the getters is exact rational arithmetic followed by explicit
`Math.round` calls, so money values are embedded as `ℚ` and `Math.round` as
`jsRound`.  The one place where JS arithmetic can leave the rationals is the
`discounts` getter, which divides by `max(orderPlacedQuantity, quantity)`
without a zero guard: a zero denominator produces the non-finite JS values
Infinity/NaN, embedded here as `none : Option ℚ`.
-/

/-- JS `Math.round`: rounds to the nearest integer, halves toward positive
infinity. -/
def jsRound (q : ℚ) : ℤ := (q + 1 / 2).floor

/-- Modelled from the spec: the tax-utils module (`netPriceOf`) is not part of
the given sources.  `netOf(amount, ratePercent) = amount / (1 + ratePercent/100)`,
rounded to the nearest integer minor unit with the engine's ambient rounding
(`Math.round`, i.e. `jsRound`). -/
def netPriceOf (grossPrice taxRate : ℚ) : ℚ :=
  (jsRound (grossPrice / (1 + taxRate / 100)) : ℚ)

/-- Modelled from the spec: the tax-utils module (`grossPriceOf`) is not part of
the given sources.  `grossOf(amount, ratePercent) = amount * (1 + ratePercent/100)`,
rounded to the nearest integer minor unit with the engine's ambient rounding
(`Math.round`, i.e. `jsRound`). -/
def grossPriceOf (netPrice taxRate : ℚ) : ℚ :=
  (jsRound (netPrice * (1 + taxRate / 100)) : ℚ)

/-- JS division producing a number: `none` stands for the non-finite result
(Infinity or NaN) obtained when the divisor is zero. -/
def jsDiv (a b : ℚ) : Option ℚ := if b = 0 then none else some (a / b)

/-- JS addition on possibly non-finite values: any operation touching the
non-finite value (`none`) stays non-finite. -/
def jsAdd (a b : Option ℚ) : Option ℚ :=
  match a, b with
  | some x, some y => some (x + y)
  | _, _ => none

/-- The adjustment types of `@vendure/common` relevant to order lines. -/
inductive AdjustmentType where
  | PROMOTION
  | DISTRIBUTED_ORDER_PROMOTION
deriving DecidableEq

/-- An adjustment record: `{ type, adjustmentSource, amount, description }`,
`amount` being the signed total effect in minor units across the recorded
quantity. -/
structure Adjustment where
  type : AdjustmentType
  adjustmentSource : String
  amount : ℤ
  description : String
deriving DecidableEq

/-- A tax line `{ description, taxRate }`. -/
structure TaxLine where
  description : String
  taxRate : ℚ
deriving DecidableEq

/-- The presentation entity built by the `discounts` getter.  `amount` and
`amountWithTax` are `Option ℚ`: `none` is the NaN produced by JS when the
scaling denominator is zero. -/
structure Discount where
  type : AdjustmentType
  adjustmentSource : String
  description : String
  amount : Option ℚ
  amountWithTax : Option ℚ
deriving DecidableEq

/-- The pricing-relevant stored state of an `OrderLine`.  `adjustments` is
`Option (List Adjustment)` because the TypeScript code defensively treats the
column as possibly undefined (`!this.adjustments`); `none` models the absent
(undefined) sequence. -/
structure OrderLine where
  quantity : ℕ
  orderPlacedQuantity : ℕ
  initialListPrice : ℤ
  listPrice : ℤ
  listPriceIncludesTax : Bool
  taxLines : List TaxLine
  adjustments : Option (List Adjustment)
deriving DecidableEq

/-- Translation of `summate(this.taxLines, 'taxRate')`. -/
def OrderLine.taxRate (line : OrderLine) : ℚ :=
  (line.taxLines.map TaxLine.taxRate).foldl (· + ·) 0

/-- Translation of the getter `unitPrice`. -/
def OrderLine.unitPrice (line : OrderLine) : ℚ :=
  if line.listPriceIncludesTax then netPriceOf line.listPrice line.taxRate
  else (line.listPrice : ℚ)

/-- Translation of the getter `unitPriceWithTax`. -/
def OrderLine.unitPriceWithTax (line : OrderLine) : ℚ :=
  if line.listPriceIncludesTax then (line.listPrice : ℚ)
  else grossPriceOf line.listPrice line.taxRate

/-- The filter predicate of `getAdjustmentsTotal`:
`type ? adjustment.type === type : true`. -/
def adjustmentMatches (t : Option AdjustmentType) (a : Adjustment) : Bool :=
  match t with
  | some ty => decide (a.type = ty)
  | none => true

/-- Translation of `getAdjustmentsTotal(type?)`: 0 when the adjustment sequence is absent or
`quantity === 0`; otherwise the per-recorded-unit amounts
`amount / max(orderPlacedQuantity, quantity)` of the type-filtered adjustments
are summed and the sum is rounded once with `Math.round`. -/
def OrderLine.getAdjustmentsTotal (line : OrderLine) (t : Option AdjustmentType) : ℚ :=
  match line.adjustments with
  | none => 0
  | some adjs =>
    if line.quantity = 0 then 0
    else
      (jsRound (((adjs.filter (adjustmentMatches t)).map
        (fun a => (a.amount : ℚ) / ((max line.orderPlacedQuantity line.quantity : ℕ) : ℚ))).foldl
          (· + ·) 0) : ℚ)

/-- Translation of the getter `discountedUnitPrice`. -/
def OrderLine.discountedUnitPrice (line : OrderLine) : ℚ :=
  let result := (line.listPrice : ℚ) + line.getAdjustmentsTotal (some AdjustmentType.PROMOTION)
  if line.listPriceIncludesTax then netPriceOf result line.taxRate else result

/-- Translation of the getter `discountedUnitPriceWithTax`. -/
def OrderLine.discountedUnitPriceWithTax (line : OrderLine) : ℚ :=
  let result := (line.listPrice : ℚ) + line.getAdjustmentsTotal (some AdjustmentType.PROMOTION)
  if line.listPriceIncludesTax then result else grossPriceOf result line.taxRate

/-- Translation of the getter `proratedUnitPrice`. -/
def OrderLine.proratedUnitPrice (line : OrderLine) : ℚ :=
  let result := (line.listPrice : ℚ) + line.getAdjustmentsTotal none
  if line.listPriceIncludesTax then netPriceOf result line.taxRate else result

/-- Translation of the getter `proratedUnitPriceWithTax`. -/
def OrderLine.proratedUnitPriceWithTax (line : OrderLine) : ℚ :=
  let result := (line.listPrice : ℚ) + line.getAdjustmentsTotal none
  if line.listPriceIncludesTax then result else grossPriceOf result line.taxRate

/-- Translation of the getter `unitTax`. -/
def OrderLine.unitTax (line : OrderLine) : ℚ :=
  line.unitPriceWithTax - line.unitPrice

/-- Translation of the getter `proratedUnitTax`. -/
def OrderLine.proratedUnitTax (line : OrderLine) : ℚ :=
  line.proratedUnitPriceWithTax - line.proratedUnitPrice

/-- Translation of the getter `linePrice`. -/
def OrderLine.linePrice (line : OrderLine) : ℚ :=
  line.unitPrice * (line.quantity : ℚ)

/-- Translation of the getter `linePriceWithTax`. -/
def OrderLine.linePriceWithTax (line : OrderLine) : ℚ :=
  line.unitPriceWithTax * (line.quantity : ℚ)

/-- Translation of the getter `discountedLinePrice`. -/
def OrderLine.discountedLinePrice (line : OrderLine) : ℚ :=
  line.discountedUnitPrice * (line.quantity : ℚ)

/-- Translation of the getter `discountedLinePriceWithTax`. -/
def OrderLine.discountedLinePriceWithTax (line : OrderLine) : ℚ :=
  line.discountedUnitPriceWithTax * (line.quantity : ℚ)

/-- Translation of the getter `lineTax`. -/
def OrderLine.lineTax (line : OrderLine) : ℚ :=
  line.unitTax * (line.quantity : ℚ)

/-- Translation of the getter `proratedLinePrice`. -/
def OrderLine.proratedLinePrice (line : OrderLine) : ℚ :=
  line.proratedUnitPrice * (line.quantity : ℚ)

/-- Translation of the getter `proratedLinePriceWithTax`. -/
def OrderLine.proratedLinePriceWithTax (line : OrderLine) : ℚ :=
  line.proratedUnitPriceWithTax * (line.quantity : ℚ)

/-- Translation of the getter `proratedLineTax`. -/
def OrderLine.proratedLineTax (line : OrderLine) : ℚ :=
  line.proratedUnitTax * (line.quantity : ℚ)

/-- Translation of the loop expression
`(adjustment.amount / Math.max(this.orderPlacedQuantity, this.quantity)) * this.quantity`
inside the `discounts` getter — no zero guard, so a zero denominator yields the
non-finite JS value (`none`). -/
def unitAdjustmentAmount (line : OrderLine) (a : Adjustment) : Option ℚ :=
  (jsDiv (a.amount : ℚ) ((max line.orderPlacedQuantity line.quantity : ℕ) : ℚ)).map
    (· * (line.quantity : ℚ))

/-- The tax-exclusive amount of one adjustment's contribution in `discounts`. -/
def discountAmount (line : OrderLine) (a : Adjustment) : Option ℚ :=
  if line.listPriceIncludesTax then
    (unitAdjustmentAmount line a).map (netPriceOf · line.taxRate)
  else unitAdjustmentAmount line a

/-- The tax-inclusive amount of one adjustment's contribution in `discounts`. -/
def discountAmountWithTax (line : OrderLine) (a : Adjustment) : Option ℚ :=
  if line.listPriceIncludesTax then unitAdjustmentAmount line a
  else (unitAdjustmentAmount line a).map (grossPriceOf · line.taxRate)

/-- One loop iteration of the `discounts` getter: a hit in the insertion-ordered
`groupedDiscounts` map adds both amounts into the existing group in place; a
miss appends a new group carrying the adjustment's own fields. -/
def discountStep (line : OrderLine) (groups : List Discount) (a : Adjustment) : List Discount :=
  if a.adjustmentSource ∈ groups.map Discount.adjustmentSource then
    groups.map (fun d =>
      if d.adjustmentSource = a.adjustmentSource then
        { d with
          amount := jsAdd d.amount (discountAmount line a),
          amountWithTax := jsAdd d.amountWithTax (discountAmountWithTax line a) }
      else d)
  else
    groups ++ [⟨a.type, a.adjustmentSource, a.description,
      discountAmount line a, discountAmountWithTax line a⟩]

/-- Translation of `get discounts()`: iterates `this.adjustments` directly (a `none` sequence
would make the getter throw, hence the `Option` result) and returns the values
of the grouping map in insertion order. -/
def OrderLine.discounts (line : OrderLine) : Option (List Discount) :=
  line.adjustments.map (fun adjs => adjs.foldl (discountStep line) [])

/-- Translation of `clearAdjustments(type?)`. -/
def OrderLine.clearAdjustments (line : OrderLine) (t : Option AdjustmentType) : OrderLine :=
  match t with
  | none => { line with adjustments := some [] }
  | some ty =>
    { line with
      adjustments := some ((line.adjustments.getD []).filter (fun a => decide (a.type ≠ ty))) }

/-- Adds to a discount group the contributions of every adjustment of `adjs`
that shares the group's `adjustmentSource`, in order, with JS addition. -/
def addContribs (line : OrderLine) (adjs : List Adjustment) (d : Discount) : Discount :=
  { d with
    amount := ((adjs.filter (fun a => decide (a.adjustmentSource = d.adjustmentSource))).map
      (discountAmount line)).foldl jsAdd d.amount,
    amountWithTax := ((adjs.filter (fun a => decide (a.adjustmentSource = d.adjustmentSource))).map
      (discountAmountWithTax line)).foldl jsAdd d.amountWithTax }

/-- The contract of the Discount Aggregator, stated from the spec: one group per
distinct `adjustmentSource` not already seen, in first-seen order; a source's
group carries the `type` and `description` of the first adjustment bearing that
source, starts from that adjustment's converted contribution and additively
accumulates the contributions of every later adjustment with the same source. -/
def specNewGroups (line : OrderLine) (seen : List String) : List Adjustment → List Discount
  | [] => []
  | a :: rest =>
    if a.adjustmentSource ∈ seen then specNewGroups line seen rest
    else
      addContribs line rest ⟨a.type, a.adjustmentSource, a.description,
        discountAmount line a, discountAmountWithTax line a⟩
        :: specNewGroups line (seen ++ [a.adjustmentSource]) rest

/-- The spec's description of the whole `discounts` result: the groups of all
adjustments, no source seen yet. -/
def specDiscounts (line : OrderLine) (adjs : List Adjustment) : List Discount :=
  specNewGroups line [] adjs

/-- The distinct adjustment sources of `adjs` not in `seen`, in first-seen
order. -/
def specSourcesFrom (seen : List String) : List Adjustment → List String
  | [] => []
  | a :: rest =>
    if a.adjustmentSource ∈ seen then specSourcesFrom seen rest
    else a.adjustmentSource :: specSourcesFrom (seen ++ [a.adjustmentSource]) rest

/-- The distinct adjustment sources of `adjs`, in first-seen order (the spec's
required ordering of the `discounts` rows). -/
def specSources (adjs : List Adjustment) : List String :=
  specSourcesFrom [] adjs

/-- C1 scenario line: `listPrice = 1000` tax-exclusive, one PROMOTION adjustment
of total amount `-200` recorded against `orderPlacedQuantity = 2`, quantity
since reduced to 1. -/
def c1Line : OrderLine :=
  { quantity := 1
    orderPlacedQuantity := 2
    initialListPrice := 1000
    listPrice := 1000
    listPriceIncludesTax := false
    taxLines := [⟨"standard", 20⟩]
    adjustments := some [⟨AdjustmentType.PROMOTION, "promo-1", -200, "2 for 1"⟩] }

/-- A line with current quantity 0 but a positive recorded quantity and a
non-empty adjustment list. -/
def zeroQtyLine : OrderLine :=
  { quantity := 0
    orderPlacedQuantity := 2
    initialListPrice := 1000
    listPrice := 1000
    listPriceIncludesTax := true
    taxLines := [⟨"standard", 20⟩]
    adjustments := some [⟨AdjustmentType.PROMOTION, "promo-1", -200, "2 for 1"⟩] }

/-- A line whose scaling denominator `max(orderPlacedQuantity, quantity)` is 0
while its adjustment list is non-empty: the `discounts` getter divides by
zero on it. -/
def zeroDenLine : OrderLine :=
  { quantity := 0
    orderPlacedQuantity := 0
    initialListPrice := 1000
    listPrice := 1000
    listPriceIncludesTax := false
    taxLines := []
    adjustments := some [⟨AdjustmentType.PROMOTION, "promo-1", -200, "2 for 1"⟩] }

/-- A line with a present but empty adjustment list. -/
def emptyAdjLine : OrderLine :=
  { quantity := 2
    orderPlacedQuantity := 2
    initialListPrice := 1200
    listPrice := 1200
    listPriceIncludesTax := true
    taxLines := [⟨"standard", 20⟩]
    adjustments := some [] }

/-- Two adjustments whose per-unit shares are -1/2 each: rounding the summed
total once gives -1, while rounding each term first would give 0. -/
def halvesLine : OrderLine :=
  { quantity := 2
    orderPlacedQuantity := 2
    initialListPrice := 1000
    listPrice := 1000
    listPriceIncludesTax := false
    taxLines := []
    adjustments := some
      [⟨AdjustmentType.PROMOTION, "half-a", -1, "a"⟩,
       ⟨AdjustmentType.PROMOTION, "half-b", -1, "b"⟩] }

/-- Three adjustments over two sources; source `P1` repeats with a different
type and description. -/
def groupAdjs : List Adjustment :=
  [⟨AdjustmentType.PROMOTION, "P1", -200, "first"⟩,
   ⟨AdjustmentType.DISTRIBUTED_ORDER_PROMOTION, "D1", -100, "order"⟩,
   ⟨AdjustmentType.DISTRIBUTED_ORDER_PROMOTION, "P1", -50, "second"⟩]

/-- A line carrying `groupAdjs`. -/
def groupLine : OrderLine :=
  { quantity := 2
    orderPlacedQuantity := 2
    initialListPrice := 1000
    listPrice := 1000
    listPriceIncludesTax := false
    taxLines := [⟨"standard", 20⟩]
    adjustments := some groupAdjs }

/-- The discount row `groupLine` produces for source `P1`: metadata of the
first `P1` adjustment, amounts accumulated over both `P1` adjustments. -/
def groupD1 : Discount :=
  ⟨AdjustmentType.PROMOTION, "P1", "first", some (-250), some (-300)⟩

/-- The discount row `groupLine` produces for source `D1`. -/
def groupD2 : Discount :=
  ⟨AdjustmentType.DISTRIBUTED_ORDER_PROMOTION, "D1", "order", some (-100), some (-120)⟩

lemma jsRound_eq_intFloor (q : ℚ) : jsRound q = ⌊q + 1 / 2⌋ := by
  rw [jsRound, Rat.floor_def', ← Rat.floor_def]

lemma abs_jsRound_sub_le (q : ℚ) : |(jsRound q : ℚ) - q| ≤ 1 / 2 := by
  rw [jsRound_eq_intFloor, abs_le]
  have h1 : (⌊q + 1 / 2⌋ : ℚ) ≤ q + 1 / 2 := Int.floor_le _
  have h2 : q + 1 / 2 < (⌊q + 1 / 2⌋ : ℚ) + 1 := Int.lt_floor_add_one _
  constructor <;> linarith

lemma foldl_add_eq_sum (l : List ℚ) : ∀ init : ℚ, l.foldl (· + ·) init = init + l.sum := by
  induction l with
  | nil => intro init; simp
  | cons x l ih => intro init; simp [ih]; ring

/-- C1: the per-unit adjustment total divides by `max(orderPlacedQuantity,
quantity)`, not by `quantity`: on a tax-exclusive line with `listPrice = 1000`,
one PROMOTION adjustment of `-200` recorded against `orderPlacedQuantity = 2`
and quantity since reduced to 1, the per-unit effect is `-100` (not `-200`),
and `discountedLinePrice = 900`. -/
theorem c1_per_unit_total_divides_by_max_recorded_quantity :
    c1Line.getAdjustmentsTotal (some AdjustmentType.PROMOTION) = -100 ∧
    c1Line.discountedUnitPrice = 900 ∧
    c1Line.proratedUnitPrice = 900 ∧
    c1Line.discountedLinePrice = 900 ∧
    c1Line.getAdjustmentsTotal (some AdjustmentType.PROMOTION) ≠
      (-200 : ℚ) / (c1Line.quantity : ℚ) := by
  refine ⟨?_, ?_, ?_, ?_, ?_⟩ <;>
    norm_num [c1Line, OrderLine.getAdjustmentsTotal, OrderLine.discountedUnitPrice,
      OrderLine.proratedUnitPrice, OrderLine.discountedLinePrice, adjustmentMatches,
      jsRound, Rat.floor_def']

/-- C2: `unitPrice + unitTax = unitPriceWithTax` and
`proratedUnitPrice + proratedUnitTax = proratedUnitPriceWithTax`, exactly, for
every line. -/
theorem c2_tax_decomposition_exact (line : OrderLine) :
    line.unitPrice + line.unitTax = line.unitPriceWithTax ∧
    line.proratedUnitPrice + line.proratedUnitTax = line.proratedUnitPriceWithTax := by
  constructor <;> simp [OrderLine.unitTax, OrderLine.proratedUnitTax]

/-- C3: every line-level figure is the corresponding unit-level figure times the
current quantity, and a zero-quantity line has all four listed line totals
equal to 0. -/
theorem c3_line_equals_unit_times_quantity (line : OrderLine) :
    line.linePrice = line.unitPrice * (line.quantity : ℚ) ∧
    line.linePriceWithTax = line.unitPriceWithTax * (line.quantity : ℚ) ∧
    line.discountedLinePrice = line.discountedUnitPrice * (line.quantity : ℚ) ∧
    line.discountedLinePriceWithTax = line.discountedUnitPriceWithTax * (line.quantity : ℚ) ∧
    line.proratedLinePrice = line.proratedUnitPrice * (line.quantity : ℚ) ∧
    line.proratedLinePriceWithTax = line.proratedUnitPriceWithTax * (line.quantity : ℚ) ∧
    line.lineTax = line.unitTax * (line.quantity : ℚ) ∧
    line.proratedLineTax = line.proratedUnitTax * (line.quantity : ℚ) ∧
    (line.quantity = 0 →
      line.linePrice = 0 ∧ line.discountedLinePrice = 0 ∧
      line.proratedLinePrice = 0 ∧ line.lineTax = 0) := by
  refine ⟨rfl, rfl, rfl, rfl, rfl, rfl, rfl, rfl, fun h => ?_⟩
  simp [OrderLine.linePrice, OrderLine.discountedLinePrice, OrderLine.proratedLinePrice,
    OrderLine.lineTax, h]

/-- C3 witness: a concrete zero-quantity line has all four line totals 0. -/
theorem c3_line_equals_unit_times_quantity_witness :
    zeroQtyLine.linePrice = 0 ∧ zeroQtyLine.discountedLinePrice = 0 ∧
    zeroQtyLine.proratedLinePrice = 0 ∧ zeroQtyLine.lineTax = 0 :=
  (c3_line_equals_unit_times_quantity zeroQtyLine).2.2.2.2.2.2.2.2 rfl

/-- C7: `clearAdjustments` with no type empties the adjustment sequence;
`clearAdjustments(T)` keeps exactly the adjustments whose type differs from
`T`, in their original relative order (a filter of the original sequence), and
is idempotent; both forms succeed on an absent adjustment sequence, yielding
the empty sequence. -/
theorem c7_clearAdjustments_filters_and_is_idempotent (line : OrderLine) (ty : AdjustmentType) :
    line.clearAdjustments none = { line with adjustments := some [] } ∧
    (line.clearAdjustments (some ty)).adjustments =
      some ((line.adjustments.getD []).filter (fun a => decide (a.type ≠ ty))) ∧
    (line.clearAdjustments (some ty)).clearAdjustments (some ty) =
      line.clearAdjustments (some ty) ∧
    OrderLine.clearAdjustments { line with adjustments := none } none =
      { line with adjustments := some [] } ∧
    OrderLine.clearAdjustments { line with adjustments := none } (some ty) =
      { line with adjustments := some [] } := by
  refine ⟨rfl, rfl, ?_, rfl, rfl⟩
  simp [OrderLine.clearAdjustments, List.filter_filter]

/-- C9: the spec-modelled gross-then-net tax round-trip returns to within one
minor currency unit of the argument, for every non-negative integer amount and
non-negative rate. -/
theorem c9_net_gross_round_trip (x : ℤ) (r : ℚ) (hx : 0 ≤ x) (hr : 0 ≤ r) :
    |netPriceOf (grossPriceOf (x : ℚ) r) r - (x : ℚ)| ≤ 1 := by
  have hf : (1 : ℚ) ≤ 1 + r / 100 := by linarith
  have hf0 : (0 : ℚ) < 1 + r / 100 := by linarith
  rw [netPriceOf, grossPriceOf]
  have h1 : |(jsRound ((x : ℚ) * (1 + r / 100)) : ℚ) - (x : ℚ) * (1 + r / 100)| ≤ 1 / 2 :=
    abs_jsRound_sub_le _
  set g : ℚ := (jsRound ((x : ℚ) * (1 + r / 100)) : ℚ) with hg
  have h2 : |g / (1 + r / 100) - (x : ℚ)| ≤ 1 / 2 := by
    have he : g / (1 + r / 100) - (x : ℚ) = (g - (x : ℚ) * (1 + r / 100)) / (1 + r / 100) := by
      field_simp
      ring
    rw [he, abs_div, abs_of_pos hf0]
    calc |g - (x : ℚ) * (1 + r / 100)| / (1 + r / 100)
        ≤ (1 / 2) / (1 + r / 100) := by gcongr
      _ ≤ 1 / 2 := div_le_self (by norm_num) hf
  have h3 : |(jsRound (g / (1 + r / 100)) : ℚ) - g / (1 + r / 100)| ≤ 1 / 2 :=
    abs_jsRound_sub_le _
  calc |(jsRound (g / (1 + r / 100)) : ℚ) - (x : ℚ)|
      ≤ |(jsRound (g / (1 + r / 100)) : ℚ) - g / (1 + r / 100)| +
        |g / (1 + r / 100) - (x : ℚ)| := abs_sub_le _ _ _
    _ ≤ 1 := by linarith

/-- C9 witness: the round-trip at `x = 100`, `r = 20` stays within one minor
unit (it is in fact exact there). -/
theorem c9_net_gross_round_trip_witness :
    |netPriceOf (grossPriceOf ((100 : ℤ) : ℚ) 20) 20 - ((100 : ℤ) : ℚ)| ≤ 1 :=
  c9_net_gross_round_trip 100 20 (by norm_num) (by norm_num)

/-- C6: with a present adjustment list and positive quantity, the adjustment
total is the sum of the selected adjustments' per-recorded-unit shares
`amount / max(orderPlacedQuantity, quantity)`, rounded to the nearest integer
exactly once, after summation. -/
theorem c6_total_rounds_once_after_summation (line : OrderLine) (adjs : List Adjustment)
    (t : Option AdjustmentType) (h : line.adjustments = some adjs) (hq : 0 < line.quantity) :
    line.getAdjustmentsTotal t =
      (jsRound (((adjs.filter (adjustmentMatches t)).map
        (fun a => (a.amount : ℚ) /
          ((max line.orderPlacedQuantity line.quantity : ℕ) : ℚ))).sum) : ℚ) := by
  simp only [OrderLine.getAdjustmentsTotal, h]
  rw [if_neg hq.ne', foldl_add_eq_sum, zero_add]

/-- C6 witness: two adjustments whose per-unit shares are `-1/2` each; the code
rounds the summed total (`-1`) once, whereas rounding each term before summing
would give `0`. -/
theorem c6_total_rounds_once_after_summation_witness :
    halvesLine.getAdjustmentsTotal none = -1 ∧
    (((halvesLine.adjustments.getD []).filter (adjustmentMatches none)).map
      (fun a => ((jsRound ((a.amount : ℚ) /
        ((max halvesLine.orderPlacedQuantity halvesLine.quantity : ℕ) : ℚ))) : ℚ))).sum = 0 := by
  constructor
  · rw [c6_total_rounds_once_after_summation halvesLine _ none rfl (by decide)]
    norm_num [halvesLine, adjustmentMatches, jsRound, Rat.floor_def']
  · norm_num [halvesLine, adjustmentMatches, jsRound, Rat.floor_def']

lemma getAdjustmentsTotal_empty (line : OrderLine) (t : Option AdjustmentType)
    (h : line.adjustments = some []) : line.getAdjustmentsTotal t = 0 := by
  have hz : jsRound 0 = 0 := by norm_num [jsRound, Rat.floor_def']
  simp [OrderLine.getAdjustmentsTotal, h, hz]

/-- C8: a line whose adjustment list is empty has
`discountedUnitPrice = proratedUnitPrice = unitPrice` (likewise with tax) and an
empty `discounts` sequence; and `clearAdjustments()` with no type turns any line
into the line with the same fields and an empty adjustment list, so every
derived read afterwards agrees with a line that never had adjustments. -/
theorem c8_empty_adjustments_are_neutral :
    (∀ line : OrderLine, line.adjustments = some [] →
      line.discountedUnitPrice = line.unitPrice ∧
      line.proratedUnitPrice = line.unitPrice ∧
      line.discountedUnitPriceWithTax = line.unitPriceWithTax ∧
      line.proratedUnitPriceWithTax = line.unitPriceWithTax ∧
      line.discounts = some []) ∧
    (∀ line : OrderLine, line.clearAdjustments none = { line with adjustments := some [] }) := by
  constructor
  · intro line h
    refine ⟨?_, ?_, ?_, ?_, ?_⟩
    · simp [OrderLine.discountedUnitPrice, OrderLine.unitPrice,
        getAdjustmentsTotal_empty line _ h]
    · simp [OrderLine.proratedUnitPrice, OrderLine.unitPrice,
        getAdjustmentsTotal_empty line _ h]
    · simp [OrderLine.discountedUnitPriceWithTax, OrderLine.unitPriceWithTax,
        getAdjustmentsTotal_empty line _ h]
    · simp [OrderLine.proratedUnitPriceWithTax, OrderLine.unitPriceWithTax,
        getAdjustmentsTotal_empty line _ h]
    · simp [OrderLine.discounts, h]
  · intro line
    rfl

/-- C8 witness: a concrete line with an empty adjustment list. -/
theorem c8_empty_adjustments_are_neutral_witness :
    emptyAdjLine.discountedUnitPrice = emptyAdjLine.unitPrice ∧
    emptyAdjLine.discounts = some [] :=
  ⟨(c8_empty_adjustments_are_neutral.1 emptyAdjLine rfl).1,
   (c8_empty_adjustments_are_neutral.1 emptyAdjLine rfl).2.2.2.2⟩

lemma addContribs_nil (line : OrderLine) (d : Discount) : addContribs line [] d = d := rfl

lemma addContribs_cons_match (line : OrderLine) (a : Adjustment) (rest : List Adjustment)
    (d : Discount) (h : a.adjustmentSource = d.adjustmentSource) :
    addContribs line (a :: rest) d =
      addContribs line rest
        { d with
          amount := jsAdd d.amount (discountAmount line a),
          amountWithTax := jsAdd d.amountWithTax (discountAmountWithTax line a) } := by
  simp [addContribs, List.filter_cons, h]

lemma addContribs_cons_nomatch (line : OrderLine) (a : Adjustment) (rest : List Adjustment)
    (d : Discount) (h : ¬a.adjustmentSource = d.adjustmentSource) :
    addContribs line (a :: rest) d = addContribs line rest d := by
  simp [addContribs, List.filter_cons, h]

/-- The `discounts` loop, started from any insertion-ordered map whose sources
are distinct, augments the existing groups with the matching contributions and
appends the groups of the unseen sources in first-seen order. -/
lemma foldl_discountStep_eq (line : OrderLine) :
    ∀ (adjs : List Adjustment) (gs : List Discount),
      (gs.map Discount.adjustmentSource).Nodup →
      adjs.foldl (discountStep line) gs =
        gs.map (addContribs line adjs) ++
          specNewGroups line (gs.map Discount.adjustmentSource) adjs := by
  intro adjs
  induction adjs with
  | nil =>
    intro gs hnd
    have he : addContribs line [] = id := funext fun d => addContribs_nil line d
    simp [specNewGroups, he]
  | cons a rest ih =>
    intro gs hnd
    rw [List.foldl_cons]
    by_cases hmem : a.adjustmentSource ∈ gs.map Discount.adjustmentSource
    · have hstep : discountStep line gs a = gs.map (fun d =>
          if d.adjustmentSource = a.adjustmentSource then
            { d with
              amount := jsAdd d.amount (discountAmount line a),
              amountWithTax := jsAdd d.amountWithTax (discountAmountWithTax line a) }
          else d) := by
        simp [discountStep, hmem]
      have hsrc : ((gs.map (fun d =>
          if d.adjustmentSource = a.adjustmentSource then
            { d with
              amount := jsAdd d.amount (discountAmount line a),
              amountWithTax := jsAdd d.amountWithTax (discountAmountWithTax line a) }
          else d)).map Discount.adjustmentSource) = gs.map Discount.adjustmentSource := by
        rw [List.map_map]
        apply List.map_congr_left
        intro d _
        by_cases hd : d.adjustmentSource = a.adjustmentSource <;> simp [hd]
      rw [hstep, ih _ (by rw [hsrc]; exact hnd), hsrc]
      have hLeft : (gs.map (fun d =>
          if d.adjustmentSource = a.adjustmentSource then
            { d with
              amount := jsAdd d.amount (discountAmount line a),
              amountWithTax := jsAdd d.amountWithTax (discountAmountWithTax line a) }
          else d)).map (addContribs line rest) = gs.map (addContribs line (a :: rest)) := by
        rw [List.map_map]
        apply List.map_congr_left
        intro d _
        by_cases hd : d.adjustmentSource = a.adjustmentSource
        · simp only [Function.comp_apply, if_pos hd]
          rw [addContribs_cons_match line a rest d hd.symm]
        · simp only [Function.comp_apply, if_neg hd]
          rw [addContribs_cons_nomatch line a rest d (fun hh => hd hh.symm)]
      rw [hLeft]
      have hTail : specNewGroups line (gs.map Discount.adjustmentSource) (a :: rest) =
          specNewGroups line (gs.map Discount.adjustmentSource) rest := by
        simp [specNewGroups, hmem]
      rw [hTail]
    · have hstep : discountStep line gs a = gs ++
          [⟨a.type, a.adjustmentSource, a.description,
            discountAmount line a, discountAmountWithTax line a⟩] := by
        simp [discountStep, hmem]
      have hnd' : (((gs ++ [(⟨a.type, a.adjustmentSource, a.description,
          discountAmount line a, discountAmountWithTax line a⟩ : Discount)]).map
            Discount.adjustmentSource)).Nodup := by
        simp [List.nodup_append, hnd, hmem]
      rw [hstep, ih _ hnd']
      have hLeft : gs.map (addContribs line (a :: rest)) = gs.map (addContribs line rest) := by
        apply List.map_congr_left
        intro d hd
        have hne : ¬a.adjustmentSource = d.adjustmentSource := by
          intro hh
          exact hmem (hh ▸ List.mem_map_of_mem Discount.adjustmentSource hd)
        exact addContribs_cons_nomatch line a rest d hne
      have hTail : specNewGroups line (gs.map Discount.adjustmentSource) (a :: rest) =
          addContribs line rest ⟨a.type, a.adjustmentSource, a.description,
            discountAmount line a, discountAmountWithTax line a⟩ ::
          specNewGroups line (gs.map Discount.adjustmentSource ++ [a.adjustmentSource]) rest := by
        simp [specNewGroups, hmem]
      rw [hLeft, hTail]
      simp [List.map_append]

lemma discounts_eq_specDiscounts (line : OrderLine) (adjs : List Adjustment)
    (h : line.adjustments = some adjs) :
    line.discounts = some (specDiscounts line adjs) := by
  simp only [OrderLine.discounts, h, Option.map]
  congr 1
  have hmain := foldl_discountStep_eq line adjs [] (by simp)
  simpa [specDiscounts] using hmain

lemma map_source_specNewGroups (line : OrderLine) :
    ∀ (adjs : List Adjustment) (seen : List String),
      (specNewGroups line seen adjs).map Discount.adjustmentSource =
        specSourcesFrom seen adjs := by
  intro adjs
  induction adjs with
  | nil => intro seen; simp [specNewGroups, specSourcesFrom]
  | cons a rest ih =>
    intro seen
    by_cases hmem : a.adjustmentSource ∈ seen
    · simp only [specNewGroups, specSourcesFrom]
      rw [if_pos hmem, if_pos hmem, ih]
    · simp only [specNewGroups, specSourcesFrom]
      rw [if_neg hmem, if_neg hmem, List.map_cons, ih]
      rfl

/-- C5: the `discounts` getter produces exactly the spec's grouping — one
`Discount` per distinct `adjustmentSource` in first-seen order, repeated
sources accumulated additively (`specDiscounts`); the source list is
`specSources`; and with a nonzero denominator each adjustment's contribution
before tax conversion is `(amount / max(orderPlacedQuantity, quantity)) *
quantity`. -/
theorem c5_discounts_group_by_source_first_seen (line : OrderLine) (adjs : List Adjustment)
    (h : line.adjustments = some adjs) :
    line.discounts = some (specDiscounts line adjs) ∧
    (specDiscounts line adjs).map Discount.adjustmentSource = specSources adjs ∧
    (0 < max line.orderPlacedQuantity line.quantity → ∀ a : Adjustment,
      unitAdjustmentAmount line a =
        some (((a.amount : ℚ) / ((max line.orderPlacedQuantity line.quantity : ℕ) : ℚ)) *
          (line.quantity : ℚ))) := by
  refine ⟨discounts_eq_specDiscounts line adjs h, ?_, ?_⟩
  · exact map_source_specNewGroups line adjs []
  · intro hmax a
    have hne : ¬(((max line.orderPlacedQuantity line.quantity : ℕ) : ℚ) = 0) :=
      Nat.cast_ne_zero.mpr hmax.ne'
    simp only [unitAdjustmentAmount, jsDiv, if_neg hne, Option.map_some']

/-- C5 witness: on `groupLine`, whose three adjustments span the sources
`P1, D1, P1`, the getter returns the spec grouping and the sources come out in
first-seen order. -/
theorem c5_discounts_group_by_source_first_seen_witness :
    groupLine.discounts = some (specDiscounts groupLine groupAdjs) ∧
    (specDiscounts groupLine groupAdjs).map Discount.adjustmentSource = ["P1", "D1"] := by
  have hc := c5_discounts_group_by_source_first_seen groupLine groupAdjs rfl
  refine ⟨hc.1, ?_⟩
  rw [hc.2.1]
  decide

lemma specNewGroups_source_not_seen (line : OrderLine) :
    ∀ (adjs : List Adjustment) (seen : List String) (d : Discount),
      d ∈ specNewGroups line seen adjs → d.adjustmentSource ∉ seen := by
  intro adjs
  induction adjs with
  | nil => intro seen d hd; simp [specNewGroups] at hd
  | cons a rest ih =>
    intro seen d hd
    simp only [specNewGroups] at hd
    by_cases hmem : a.adjustmentSource ∈ seen
    · rw [if_pos hmem] at hd
      exact ih seen d hd
    · rw [if_neg hmem] at hd
      rcases List.mem_cons.mp hd with h1 | h1
      · intro hin
        rw [h1] at hin
        exact hmem hin
      · intro hin
        exact ih (seen ++ [a.adjustmentSource]) d h1 (List.mem_append_left _ hin)

lemma specNewGroups_first_metadata (line : OrderLine) :
    ∀ (adjs : List Adjustment) (seen : List String) (d : Discount),
      d ∈ specNewGroups line seen adjs →
      ∃ a, adjs.find? (fun x => decide (x.adjustmentSource = d.adjustmentSource)) = some a ∧
        d.type = a.type ∧ d.description = a.description ∧
        d.adjustmentSource = a.adjustmentSource := by
  intro adjs
  induction adjs with
  | nil => intro seen d hd; simp [specNewGroups] at hd
  | cons a rest ih =>
    intro seen d hd
    simp only [specNewGroups] at hd
    by_cases hmem : a.adjustmentSource ∈ seen
    · rw [if_pos hmem] at hd
      obtain ⟨a1, hfind, hmeta⟩ := ih seen d hd
      have hne : ¬(a.adjustmentSource = d.adjustmentSource) := by
        intro hh
        exact (specNewGroups_source_not_seen line rest seen d hd) (hh ▸ hmem)
      exact ⟨a1, by simp [List.find?_cons, hne, hfind], hmeta⟩
    · rw [if_neg hmem] at hd
      rcases List.mem_cons.mp hd with h1 | h1
      · refine ⟨a, ?_, ?_, ?_, ?_⟩
        · have hsrc : d.adjustmentSource = a.adjustmentSource := by rw [h1]; rfl
          simp [List.find?_cons, hsrc]
        · rw [h1]; rfl
        · rw [h1]; rfl
        · rw [h1]; rfl
      · have hnotseen := specNewGroups_source_not_seen line rest
          (seen ++ [a.adjustmentSource]) d h1
        have hne : ¬(a.adjustmentSource = d.adjustmentSource) := by
          intro hh
          exact hnotseen (List.mem_append_right _ (by simp [hh]))
        obtain ⟨a1, hfind, hmeta⟩ := ih _ d h1
        exact ⟨a1, by simp [List.find?_cons, hne, hfind], hmeta⟩

/-- C10: every discount row produced by the getter carries the `type` and
`description` of the first adjustment in the sequence bearing its source; later
same-source adjustments contribute only their amounts. -/
theorem c10_group_metadata_from_first_adjustment (line : OrderLine) (adjs : List Adjustment)
    (h : line.adjustments = some adjs) :
    ∀ d ∈ line.discounts.getD [],
      ∃ a, adjs.find? (fun x => decide (x.adjustmentSource = d.adjustmentSource)) = some a ∧
        d.type = a.type ∧ d.description = a.description ∧
        d.adjustmentSource = a.adjustmentSource := by
  intro d hd
  rw [discounts_eq_specDiscounts line adjs h] at hd
  simp only [Option.getD_some] at hd
  exact specNewGroups_first_metadata line adjs [] d hd

/-- C10 witness: on `groupLine` the `P1` row keeps the first `P1` adjustment's
PROMOTION type and description `"first"`, even though the later `P1` adjustment
has a different type and description; the two rows evaluate to `groupD1` and
`groupD2`, with the `P1` amounts summed. -/
theorem c10_group_metadata_from_first_adjustment_witness :
    groupLine.discounts = some [groupD1, groupD2] ∧
    ∃ a, groupAdjs.find? (fun x => decide (x.adjustmentSource = groupD1.adjustmentSource)) =
        some a ∧
      groupD1.type = a.type ∧ groupD1.description = a.description ∧
      groupD1.adjustmentSource = a.adjustmentSource := by
  have heval : groupLine.discounts = some [groupD1, groupD2] := by
    simp only [groupLine, groupAdjs, groupD1, groupD2, OrderLine.discounts, discountStep,
      discountAmount, discountAmountWithTax, unitAdjustmentAmount, jsDiv, jsAdd,
      grossPriceOf, OrderLine.taxRate, Option.map_some', List.foldl_cons, List.foldl_nil,
      List.map_cons, List.map_nil]
    simp
    norm_num [jsRound, Rat.floor_def']
  refine ⟨heval, ?_⟩
  apply c10_group_metadata_from_first_adjustment groupLine groupAdjs rfl groupD1
  simp [heval]

lemma unitAdjustmentAmount_isSome (line : OrderLine)
    (hmax : 0 < max line.orderPlacedQuantity line.quantity) (a : Adjustment) :
    ∃ q, unitAdjustmentAmount line a = some q := by
  have hne : ¬(((max line.orderPlacedQuantity line.quantity : ℕ) : ℚ) = 0) :=
    Nat.cast_ne_zero.mpr hmax.ne'
  refine ⟨(a.amount : ℚ) / ((max line.orderPlacedQuantity line.quantity : ℕ) : ℚ) *
    (line.quantity : ℚ), ?_⟩
  simp only [unitAdjustmentAmount, jsDiv, if_neg hne, Option.map_some']

lemma discountAmount_isSome (line : OrderLine)
    (hmax : 0 < max line.orderPlacedQuantity line.quantity) (a : Adjustment) :
    ∃ q, discountAmount line a = some q := by
  obtain ⟨q, hq⟩ := unitAdjustmentAmount_isSome line hmax a
  rw [discountAmount]
  by_cases hb : line.listPriceIncludesTax <;> simp [hb, hq]

lemma discountAmountWithTax_isSome (line : OrderLine)
    (hmax : 0 < max line.orderPlacedQuantity line.quantity) (a : Adjustment) :
    ∃ q, discountAmountWithTax line a = some q := by
  obtain ⟨q, hq⟩ := unitAdjustmentAmount_isSome line hmax a
  rw [discountAmountWithTax]
  by_cases hb : line.listPriceIncludesTax <;> simp [hb, hq]

lemma foldl_jsAdd_some :
    ∀ (l : List (Option ℚ)), (∀ x ∈ l, ∃ q, x = some q) →
      ∀ v : ℚ, ∃ q, l.foldl jsAdd (some v) = some q := by
  intro l
  induction l with
  | nil => intro _ v; exact ⟨v, rfl⟩
  | cons x rest ih =>
    intro hall v
    obtain ⟨qx, hqx⟩ := hall x (List.mem_cons_self x rest)
    rw [List.foldl_cons, hqx]
    exact ih (fun y hy => hall y (List.mem_cons_of_mem _ hy)) (v + qx)

lemma specNewGroups_amounts_isSome (line : OrderLine)
    (hmax : 0 < max line.orderPlacedQuantity line.quantity) :
    ∀ (adjs : List Adjustment) (seen : List String) (d : Discount),
      d ∈ specNewGroups line seen adjs →
      (∃ q, d.amount = some q) ∧ (∃ q, d.amountWithTax = some q) := by
  intro adjs
  induction adjs with
  | nil => intro seen d hd; simp [specNewGroups] at hd
  | cons a rest ih =>
    intro seen d hd
    simp only [specNewGroups] at hd
    by_cases hmem : a.adjustmentSource ∈ seen
    · rw [if_pos hmem] at hd
      exact ih seen d hd
    · rw [if_neg hmem] at hd
      rcases List.mem_cons.mp hd with h1 | h1
      · obtain ⟨qa, hqa⟩ := discountAmount_isSome line hmax a
        obtain ⟨qb, hqb⟩ := discountAmountWithTax_isSome line hmax a
        constructor
        · rw [h1]
          show ∃ q, (((rest.filter _).map (discountAmount line)).foldl jsAdd
            (discountAmount line a)) = some q
          rw [hqa]
          apply foldl_jsAdd_some
          intro x hx
          obtain ⟨a1, _, hxa⟩ := List.mem_map.mp hx
          obtain ⟨q1, hq1⟩ := discountAmount_isSome line hmax a1
          exact ⟨q1, by rw [← hxa, hq1]⟩
        · rw [h1]
          show ∃ q, (((rest.filter _).map (discountAmountWithTax line)).foldl jsAdd
            (discountAmountWithTax line a)) = some q
          rw [hqb]
          apply foldl_jsAdd_some
          intro x hx
          obtain ⟨a1, _, hxa⟩ := List.mem_map.mp hx
          obtain ⟨q1, hq1⟩ := discountAmountWithTax_isSome line hmax a1
          exact ⟨q1, by rw [← hxa, hq1]⟩
      · exact ih _ d h1

/-- C4 as amended: the adjustment total is 0 whenever the quantity is 0 or the
adjustment sequence is absent or empty; and the discount rows carry well-defined
(finite) amounts whenever the scaling denominator
`max(orderPlacedQuantity, quantity)` is positive.  (As stated, the claim fails:
with a present non-empty adjustment list and
`quantity = orderPlacedQuantity = 0` the getter divides by zero, see the
counterexample.) -/
theorem c4_amended_totals_and_discounts_guarded (line : OrderLine) (t : Option AdjustmentType) :
    ((line.quantity = 0 ∨ line.adjustments = none ∨ line.adjustments = some []) →
      line.getAdjustmentsTotal t = 0) ∧
    (0 < max line.orderPlacedQuantity line.quantity →
      ∀ d ∈ line.discounts.getD [],
        (∃ q, d.amount = some q) ∧ (∃ q, d.amountWithTax = some q)) := by
  constructor
  · rintro (hq | hn | he)
    · cases heq : line.adjustments with
      | none => simp [OrderLine.getAdjustmentsTotal, heq]
      | some adjs => simp [OrderLine.getAdjustmentsTotal, heq, hq]
    · simp [OrderLine.getAdjustmentsTotal, hn]
    · exact getAdjustmentsTotal_empty line t he
  · intro hmax d hd
    cases heq : line.adjustments with
    | none => simp [OrderLine.discounts, heq] at hd
    | some adjs =>
      rw [discounts_eq_specDiscounts line adjs heq] at hd
      simp only [Option.getD_some] at hd
      exact specNewGroups_amounts_isSome line hmax adjs [] d hd

/-- C4 witness: `zeroQtyLine` has quantity 0 (with recorded quantity 2): its
adjustment total is 0 and its discount rows all carry finite amounts. -/
theorem c4_amended_totals_and_discounts_guarded_witness :
    zeroQtyLine.getAdjustmentsTotal none = 0 ∧
    ∀ d ∈ zeroQtyLine.discounts.getD [],
      (∃ q, d.amount = some q) ∧ (∃ q, d.amountWithTax = some q) :=
  ⟨(c4_amended_totals_and_discounts_guarded zeroQtyLine none).1 (Or.inl rfl),
   (c4_amended_totals_and_discounts_guarded zeroQtyLine none).2 (by decide)⟩

/-- C4 counterexample: on a line with a present, non-empty adjustment list and
`quantity = orderPlacedQuantity = 0`, the `discounts` getter divides the
adjustment amount by `max(0, 0) = 0`: the produced row's `amount` and
`amountWithTax` are the division-by-zero artifact (`none`, i.e. JS NaN), not
well-defined numbers — refuting the claim as stated. -/
theorem c4_counterexample_discounts_divide_by_zero :
    zeroDenLine.quantity = 0 ∧
    zeroDenLine.adjustments = some [⟨AdjustmentType.PROMOTION, "promo-1", -200, "2 for 1"⟩] ∧
    zeroDenLine.discounts =
      some [⟨AdjustmentType.PROMOTION, "promo-1", "2 for 1", none, none⟩] := by
  refine ⟨rfl, rfl, ?_⟩
  norm_num [zeroDenLine, OrderLine.discounts, discountStep, discountAmount,
    discountAmountWithTax, unitAdjustmentAmount, jsDiv]
